import Mathlib

/-!
Verification development for the Boid simulation (Boid.py, Simulation.py,
Controller.py).

Modelling conventions:
* Python floating-point arithmetic is modelled by exact rational arithmetic
  over `ℚ`.  `pygame.math.Vector3` becomes the record `V3` below.
* `Vector3.length` / `distance_to` involve a square root.  We model the
  square root by `ratSqrt`, the exact rational square root, which agrees
  with the real square root exactly on perfect squares of rationals (the
  predicate `IsSqrtExact`).  Theorems about magnitudes carry an
  `IsSqrtExact` hypothesis; comparisons of the form `dist = 0` or
  `0 < length v` are exact regardless, since `ratSqrt q = 0 ↔ q = 0` for
  `q ≥ 0`.
* `Vector3.scale_to_length` raises `ValueError` on a zero-length vector;
  fallible operations therefore return `Option`, `none` marking a raised
  exception.  Calls that the source guards with an explicit length check
  use the total scaling function `scaleToLengthT`.
* Randomness (`random.random()`, `random.uniform`, `random.choice`) is
  modelled by explicit oracle arguments.
* Python object identity (`boid != self`, set membership of boids) is
  modelled by list positions / indices.
-/

/-- A 3-component rational vector, modelling `pygame.math.Vector3`. -/
structure V3 where
  x : ℚ
  y : ℚ
  z : ℚ
deriving DecidableEq

instance : Zero V3 := ⟨⟨0, 0, 0⟩⟩

instance : Add V3 := ⟨fun a b => ⟨a.x + b.x, a.y + b.y, a.z + b.z⟩⟩

instance : Sub V3 := ⟨fun a b => ⟨a.x - b.x, a.y - b.y, a.z - b.z⟩⟩

instance : Neg V3 := ⟨fun a => ⟨-a.x, -a.y, -a.z⟩⟩

instance : SMul ℚ V3 := ⟨fun c a => ⟨c * a.x, c * a.y, c * a.z⟩⟩

instance : Inhabited V3 := ⟨0⟩

/-- Squared Euclidean norm of a vector. -/
def normSq (v : V3) : ℚ := v.x ^ 2 + v.y ^ 2 + v.z ^ 2

/-- Integer square root, structurally recursive in an explicit fuel so that
it reduces inside the kernel (`Nat.sqrt` is defined by well-founded
recursion and does not); the digit-recursion depth is logarithmic, so fuel
`n` is always sufficient. -/
def isqrtGo : ℕ → ℕ → ℕ
  | 0, _ => 0
  | fuel + 1, n =>
    if n = 0 then 0
    else
      let r := 2 * isqrtGo fuel (n / 4)
      if (r + 1) * (r + 1) ≤ n then r + 1 else r

/-- Integer square root (rounded down). -/
def isqrt (n : ℕ) : ℕ := isqrtGo n n

/-- Exact rational square root: on a nonnegative rational that is the square
of a rational it returns that (nonnegative) square root; on other inputs its
value is irrelevant to the development (theorems that depend on the value
carry `IsSqrtExact`). -/
def ratSqrt (q : ℚ) : ℚ := (isqrt q.num.toNat : ℚ) / (isqrt q.den : ℚ)

/-- The input on which `ratSqrt` computes the exact real square root. -/
def IsSqrtExact (q : ℚ) : Prop := ratSqrt q ^ 2 = q

instance (q : ℚ) : Decidable (IsSqrtExact q) := by
  unfold IsSqrtExact; infer_instance

/-- Length (`Vector3.length()`): square root of the squared norm. -/
def vlen (v : V3) : ℚ := ratSqrt (normSq v)

/-- Model of `Vector3.distance_to`. -/
def dist_to (p q : V3) : ℚ := ratSqrt (normSq (p - q))

/-- The mathematical part of `Vector3.scale_to_length(L)`: rescale `v` so its
length becomes `L`.  Used directly where the source guards the call with a
length check. -/
def scaleToLengthT (v : V3) (L : ℚ) : V3 := (L / ratSqrt (normSq v)) • v

/-- Model of `Vector3.scale_to_length(L)` including its failure behaviour: pygame
raises `ValueError` when the vector has zero length. -/
def scaleToLength (v : V3) (L : ℚ) : Option V3 :=
  if normSq v = 0 then none else some (scaleToLengthT v L)

/--
A boid (`Boid.__init__`, Boid.py lines 25-38).  The `color` and `group`
attributes are presentation metadata (they never feed back into behaviour)
and are not modelled.
-/
structure Boid where
  boid_size : ℚ
  separation_radius : ℚ
  cohesion_radius : ℚ
  alignment_radius : ℚ
  max_speed : ℚ
  max_force : ℚ
  position : V3
  velocity : V3
  acceleration : V3
deriving DecidableEq, Inhabited

/-- Model of `Boid.__init__` (Boid.py lines 25-38).  `rvel` is the oracle for the
three `random.uniform(-1, 1)` draws; `scale_to_length(max_speed/3)` raises
on a zero draw, hence the `Option`. -/
def Boid.init (x y z boid_size separation_radius cohesion_radius
    alignment_radius max_speed max_force : ℚ) (rvel : V3) : Option Boid :=
  (scaleToLength rvel (max_speed / 3)).map fun v =>
    { boid_size := boid_size
      separation_radius := boid_size * separation_radius / 2
      cohesion_radius := boid_size * cohesion_radius
      alignment_radius := boid_size * alignment_radius
      max_speed := max_speed
      max_force := max_force
      position := ⟨x, y, z⟩
      velocity := v
      acceleration := 0 }

/-- Model of `Boid._update_args` (Boid.py lines 43-49). -/
def Boid.update_args (self : Boid) (boid_size separation_radius
    cohesion_radius alignment_radius max_speed max_force : ℚ) : Boid :=
  { self with
    boid_size := boid_size
    separation_radius := boid_size * separation_radius / 2
    cohesion_radius := boid_size * cohesion_radius
    alignment_radius := boid_size * alignment_radius
    max_speed := max_speed
    max_force := max_force }

/-- Model of `Boid._apply_force` (Boid.py lines 135-140). -/
def Boid.apply_force (self : Boid) (force : V3) : Boid :=
  { self with acceleration := self.acceleration + force }

/-- The neighbour test of `Boid._separate` (Boid.py lines 157-159): the
distance, floored to 0.001 when zero, is below the separation radius. -/
def sepClose (self b : Boid) : Prop :=
  (if dist_to self.position b.position = 0 then (1 : ℚ) / 1000
   else dist_to self.position b.position) < self.separation_radius

instance (self b : Boid) : Decidable (sepClose self b) := by
  unfold sepClose; infer_instance

/-- One iteration of the accumulation loop of `Boid._separate`
(Boid.py lines 155-164), acting on the (force, count) pair. -/
def sepStep (self : Boid) (acc : V3 × ℕ) (b : Boid) : V3 × ℕ :=
  if sepClose self b then
    let diff := self.position - b.position
    let d := if dist_to self.position b.position = 0 then (1 : ℚ) / 1000
             else dist_to self.position b.position
    (if 0 < vlen diff then acc.1 + scaleToLengthT diff (1 / d) else acc.1,
     acc.2 + 1)
  else acc

/-- Model of `Boid._separate` (Boid.py lines 142-173).  `others` is the boid list
without `self` (the source skips `self` by object identity).  The two
scalings inside the `length() > 0` guard use the total function; the final
`scale_to_length(max_force)` is unguarded, hence the `Option`. -/
def Boid.separate (self : Boid) (others : List Boid) : Option V3 :=
  let fc := others.foldl (sepStep self) (0, 0)
  if 0 < fc.2 then
    let force := ((1 : ℚ) / (fc.2 : ℚ)) • fc.1
    if 0 < vlen force then
      scaleToLength (scaleToLengthT force self.max_speed - self.velocity)
        self.max_force
    else some force
  else some fc.1

/-- The neighbour test of `Boid._align` (Boid.py lines 190-191). -/
def alignClose (self b : Boid) : Prop :=
  dist_to self.position b.position < self.alignment_radius

instance (self b : Boid) : Decidable (alignClose self b) := by
  unfold alignClose; infer_instance

/-- One iteration of the accumulation loop of `Boid._align`
(Boid.py lines 188-193). -/
def alignStep (self : Boid) (acc : V3 × ℕ) (b : Boid) : V3 × ℕ :=
  if alignClose self b then (acc.1 + b.velocity, acc.2 + 1) else acc

/-- Model of `Boid._align` (Boid.py lines 175-202). -/
def Boid.align (self : Boid) (others : List Boid) : Option V3 :=
  let fc := others.foldl (alignStep self) (0, 0)
  if 0 < fc.2 then
    let force := ((1 : ℚ) / (fc.2 : ℚ)) • fc.1
    if 0 < vlen force then
      scaleToLength (scaleToLengthT force self.max_speed - self.velocity)
        self.max_force
    else some force
  else some fc.1

/-- The neighbour test of `Boid._cohesion` (Boid.py lines 219-220). -/
def cohClose (self b : Boid) : Prop :=
  dist_to self.position b.position < self.cohesion_radius

instance (self b : Boid) : Decidable (cohClose self b) := by
  unfold cohClose; infer_instance

/-- One iteration of the accumulation loop of `Boid._cohesion`
(Boid.py lines 217-222). -/
def cohStep (self : Boid) (acc : V3 × ℕ) (b : Boid) : V3 × ℕ :=
  if cohClose self b then (acc.1 + (b.position - self.position), acc.2 + 1)
  else acc

/-- Model of `Boid._cohesion` (Boid.py lines 204-230). -/
def Boid.cohesion (self : Boid) (others : List Boid) : Option V3 :=
  let fc := others.foldl (cohStep self) (0, 0)
  if 0 < fc.2 then
    let force := ((1 : ℚ) / (fc.2 : ℚ)) • fc.1
    if 0 < vlen force then
      scaleToLength (scaleToLengthT force self.max_speed - self.velocity)
        self.max_force
    else some force
  else some fc.1

/-- Cross product of two vectors (`Vector3.cross`). -/
def cross (a b : V3) : V3 :=
  ⟨a.y * b.z - a.z * b.y, a.z * b.x - a.x * b.z, a.x * b.y - a.y * b.x⟩

/-- Model of `Boid._align_to_center` (Boid.py lines 232-266).  `coin` is the oracle
for `random.random() < 0.5`.  The result is computed by `flock` but never
applied; only its possible failure is behaviourally relevant. -/
def Boid.align_to_center (self : Boid) (coin : Bool) : Option V3 :=
  let dtc := (0 : V3) - self.position
  let current_distance := vlen dtc
  if 0 < current_distance then do
    let pd := if coin then cross dtc ⟨0, 0, 1⟩ else cross dtc ⟨0, 0, -1⟩
    let pd ← scaleToLength pd 1
    let cd ← scaleToLength dtc 1
    let tf := (self.max_force * (1 / 2)) • pd + (self.max_force * (1 / 2)) • cd
    let tf ← if self.max_force < vlen tf then scaleToLength tf self.max_force
             else some tf
    scaleToLength tf (self.max_force *
      (3 / 2 * (current_distance - 125) / (250 - 125) *
          (current_distance - 1) / (250 - 1) +
        (current_distance - 250) / (125 - 250) *
          (current_distance - 1) / (125 - 1)))
  else some 0

/-- Model of `Boid._stay_in_cube` (Boid.py lines 280-304).  `constants.py` is not
part of the sources; the cube side `CUBE_SIZE` is therefore a parameter. -/
def Boid.stay_in_cube (cubeSize : ℚ) (self : Boid) : V3 :=
  let border_radius := self.boid_size * 2
  let mf := self.max_force * 5
  ⟨if self.position.x < -cubeSize / 2 + border_radius then mf
     else if cubeSize / 2 - border_radius < self.position.x then -mf else 0,
   if self.position.y < -cubeSize / 2 + border_radius then mf
     else if cubeSize / 2 - border_radius < self.position.y then -mf else 0,
   if self.position.z < -cubeSize / 2 + border_radius then mf
     else if cubeSize / 2 - border_radius < self.position.z then -mf else 0⟩

/-- Oracle for the random draws made during one `Boid.flock` call. -/
structure FlockOracle where
  impulse : Bool
  impulseDir : V3
  coin : Bool

/-- Model of `Boid.flock` (Boid.py lines 52-77).  All five force computations run
first (any of them may raise); then either the random impulse (probability
0.1, oracle `o.impulse`) or the weighted deterministic forces are applied.
The center-alignment force is computed and discarded (its application on
line 77 is commented out in the source). -/
def Boid.flock (cubeSize : ℚ) (self : Boid) (others : List Boid)
    (o : FlockOracle) : Option Boid := do
  let separation_force ← self.separate others
  let alignment_force ← self.align others
  let cohesion_force ← self.cohesion others
  let cube_force := Boid.stay_in_cube cubeSize self
  let _center ← self.align_to_center o.coin
  if o.impulse then
    let rd ← scaleToLength o.impulseDir 1
    return self.apply_force ((self.max_force * 4) • rd)
  else
    return ((((self.apply_force ((2 : ℚ) • separation_force)).apply_force
      ((1 / 5 : ℚ) • alignment_force)).apply_force
      cohesion_force).apply_force cube_force)

/-- Model of `Boid.update` (Boid.py lines 79-86): add the accumulated force to the
velocity, rescale the velocity to `max_speed` (raises when the sum is the
zero vector), advance the position, clear the accumulator. -/
def Boid.update (self : Boid) : Option Boid := do
  let v ← scaleToLength (self.velocity + self.acceleration) self.max_speed
  return { self with
    velocity := v
    position := self.position + v
    acceleration := 0 }

/-- Parameter snapshot delivered by the controller GUI
(Controller.py lines 136-144). -/
structure Params where
  num_boids : ℕ
  boid_size : ℚ
  separation_radius : ℚ
  cohesion_radius : ℚ
  alignment_radius : ℚ
  max_speed : ℚ
  max_force : ℚ
deriving DecidableEq

/-- The state owned by `Simulation` that the core claims are about:
the agent collection, the population target `num_boids`, the template
parameter fields, the three control events, and the loop flag `running`.
Camera, frame-capture and window state are presentation-only and not
modelled. -/
structure SimState where
  boids : List Boid
  num_boids : ℕ
  boid_size : ℚ
  separation_radius : ℚ
  cohesion_radius : ℚ
  alignment_radius : ℚ
  max_speed : ℚ
  max_force : ℚ
  pause_event : Bool
  stop_event : Bool
  update_event : Bool
  running : Bool
deriving DecidableEq

/-- Model of `Simulation._update_args` (Simulation.py lines 78-86): stores the
*derived* radii (size*ratio/2, size*ratio) into the Simulation fields. -/
def SimState.update_args (s : SimState) (p : Params) : SimState :=
  { s with
    num_boids := p.num_boids
    boid_size := p.boid_size
    separation_radius := p.boid_size * p.separation_radius / 2
    cohesion_radius := p.boid_size * p.cohesion_radius
    alignment_radius := p.boid_size * p.alignment_radius
    max_speed := p.max_speed
    max_force := p.max_force }

/-- Model of `BoidSimulationController._update_params` (Controller.py lines 130-147):
sets the update event, rewrites the Simulation fields via
`Simulation._update_args`, and rewrites every existing boid's parameters via
`Boid._update_args` — all synchronously on the controller thread. -/
def update_params (s : SimState) (p : Params) : SimState :=
  let s1 := { s with update_event := true }
  let s2 := s1.update_args p
  { s2 with boids := s2.boids.map (fun b =>
      b.update_args p.boid_size p.separation_radius p.cohesion_radius
        p.alignment_radius p.max_speed p.max_force) }

/-- Randomness consumed when one new boid is created in `_add_boids`:
the three `random.uniform(-CUBE_SIZE/2, CUBE_SIZE/2)` position draws and
the initial-velocity draw of `Boid.__init__`. -/
structure NewBoidSeed where
  x : ℚ
  y : ℚ
  z : ℚ
  rvel : V3

/-- Construction of one boid inside `Simulation._add_boids`
(Simulation.py lines 162-169): the boid is built from the Simulation's
current parameter fields. -/
def mkNewBoid (s : SimState) (seed : NewBoidSeed) : Option Boid :=
  Boid.init seed.x seed.y seed.z s.boid_size s.separation_radius
    s.cohesion_radius s.alignment_radius s.max_speed s.max_force seed.rvel

/-- The loop of `Simulation._add_boids` (Simulation.py lines 162-169). -/
def addBoidsGo (s : SimState) (seeds : ℕ → NewBoidSeed) :
    ℕ → ℕ → List Boid → Option (List Boid)
  | 0, _, bs => some bs
  | n + 1, k, bs => do
    let b ← mkNewBoid s (seeds k)
    addBoidsGo s seeds n (k + 1) (bs ++ [b])

/-- Model of `Simulation._add_boids` (Simulation.py lines 158-170). -/
def addBoids (seeds : ℕ → NewBoidSeed) (n : ℕ) (s : SimState) :
    Option SimState :=
  (addBoidsGo s seeds n 0 s.boids).map fun bs =>
    { s with boids := bs, num_boids := bs.length }

/-- The loop of `Simulation._remove_random_boids` (Simulation.py lines
176-180): each step removes a uniformly chosen boid (oracle `choice`,
reduced modulo the current length) if any remain. -/
def removeBoidsGo (choice : ℕ → ℕ) : ℕ → ℕ → List Boid → List Boid
  | 0, _, bs => bs
  | n + 1, k, bs =>
    if bs.isEmpty then removeBoidsGo choice n (k + 1) bs
    else removeBoidsGo choice n (k + 1) (bs.eraseIdx (choice k % bs.length))

/-- Model of `Simulation._remove_random_boids` (Simulation.py lines 172-181). -/
def removeBoids (choice : ℕ → ℕ) (n : ℕ) (s : SimState) : SimState :=
  let bs := removeBoidsGo choice n 0 s.boids
  { s with boids := bs, num_boids := bs.length }

/-- The interleaved physics loop of `Simulation.run` (Simulation.py lines
432-434): each boid in turn computes its forces against the current list
(already-updated predecessors `done` plus not-yet-updated successors) and
immediately integrates. -/
def physicsGo (cubeSize : ℚ) (os : ℕ → FlockOracle) :
    ℕ → List Boid → List Boid → Option (List Boid)
  | _, done, [] => some done
  | k, done, b :: todo => do
    let bf ← Boid.flock cubeSize b (done ++ todo) (os k)
    let bu ← bf.update
    physicsGo cubeSize os (k + 1) (done ++ [bu]) todo

/-- The physics pass of one tick (Simulation.py lines 431-434, the body of
`if not self.pause_event.is_set()`). -/
def physicsPass (cubeSize : ℚ) (os : ℕ → FlockOracle) (bs : List Boid) :
    Option (List Boid) :=
  physicsGo cubeSize os 0 [] bs

/-- The two disjoint passes described by the specification (§4.2): first
every agent computes its forces against the pre-tick snapshot, then every
agent integrates.  Stated from the spec's words, for comparison with
`physicsPass`. -/
def physicsPassSpec (cubeSize : ℚ) (os : ℕ → FlockOracle) (bs : List Boid) :
    Option (List Boid) := do
  let forced ← bs.enum.mapM fun ib =>
    Boid.flock cubeSize ib.2 (bs.eraseIdx ib.1) (os ib.1)
  forced.mapM Boid.update

/-- Oracle for the random draws and input events of one run-loop
iteration. -/
structure TickOracle where
  quit : Bool
  seeds : ℕ → NewBoidSeed
  removals : ℕ → ℕ
  flockOs : ℕ → FlockOracle

/-- Event polling at the top of the run loop (Simulation.py lines 412-417):
a pygame `QUIT` event or an observed stop event clears `running`.  Camera
events are presentation-only. -/
def pollEvents (o : TickOracle) (s : SimState) : SimState :=
  let s1 := if o.quit then { s with running := false } else s
  if s1.stop_event then { s1 with running := false } else s1

/-- The grow/shrink dispatch of Simulation.py lines 419-420. -/
def resizeStep (o : TickOracle) (s : SimState) : Option SimState :=
  if s.boids.length < s.num_boids then
    addBoids o.seeds (s.num_boids - s.boids.length) s
  else if s.num_boids < s.boids.length then
    some (removeBoids o.removals (s.boids.length - s.num_boids) s)
  else some s

/-- Pending-resize handling (Simulation.py lines 418-422): when the update
event is set, grow or shrink the collection to the target and clear the
event. -/
def applyResize (o : TickOracle) (s : SimState) : Option SimState :=
  if s.update_event then
    (resizeStep o s).map fun s1 => { s1 with update_event := false }
  else some s

/-- One iteration of the main loop of `Simulation.run` (Simulation.py lines
411-452): poll events, handle a pending resize, then — unless paused — run
the physics pass.  Rendering, group colouring, camera and frame capture
(lines 424-429 and 436-452) only touch presentation state and are not
modelled. -/
def tick (cubeSize : ℚ) (o : TickOracle) (s : SimState) : Option SimState := do
  let s1 := pollEvents o s
  let s2 ← applyResize o s1
  if s2.pause_event then some s2
  else do
    let bs ← physicsPass cubeSize o.flockOs s2.boids
    some { s2 with boids := bs }

/-- The `while running` loop of `Simulation.run` (Simulation.py line 411),
driven by a finite oracle stream (one `TickOracle` per iteration). -/
def runLoop (cubeSize : ℚ) : List TickOracle → SimState → Option SimState
  | [], s => some s
  | o :: os, s =>
    if s.running then (tick cubeSize o s).bind (runLoop cubeSize os)
    else some s

/-- The cleanup after the loop exits (Simulation.py lines 454-458): the run
unit clears all three events, including the stop event. -/
def runFinish (s : SimState) : SimState :=
  { s with stop_event := false, pause_event := false, update_event := false }

/-- Model of `Simulation.run` past `_pre_simulation_interaction`: the tick loop
followed by the event cleanup. -/
def runSim (cubeSize : ℚ) (os : List TickOracle) (s : SimState) :
    Option SimState :=
  (runLoop cubeSize os s).map runFinish

/-- The close-distance threshold of `Simulation._get_boid_groups`
(Simulation.py line 345): `self.boid_size + self.cohesion_radius*2`,
built from the Simulation's fields. -/
def closeThreshold (s : SimState) : ℚ := s.boid_size + s.cohesion_radius * 2

/-- The closeness test of `Simulation._get_boid_groups` (line 345) between
the boids at positions `i` and `j` of the collection. -/
def boidClose (s : SimState) (i j : ℕ) : Prop :=
  dist_to (s.boids.getD i default).position
    (s.boids.getD j default).position < closeThreshold s

instance (s : SimState) (i j : ℕ) : Decidable (boidClose s i j) := by
  unfold boidClose; infer_instance

/-- The close set of boid `i` (Simulation.py lines 343-346): itself plus
every other boid within the threshold.  Boids are identified by their list
index (Python set membership is object identity). -/
def closeSet (s : SimState) (i : ℕ) : Finset ℕ :=
  insert i ((Finset.range s.boids.length).filter
    (fun j => j ≠ i ∧ boidClose s i j))

/-- The `initial_groups` list (Simulation.py lines 341-348): the close sets
in boid order, singletons discarded. -/
def initialGroups (s : SimState) : List (Finset ℕ) :=
  ((List.range s.boids.length).map (closeSet s)).filter (fun g => 2 ≤ g.card)

/-- One execution of the inner `while i < len(initial_groups)` loop of
`Simulation._get_boid_groups` (lines 353-358): a single left-to-right scan;
every group sharing an agent with the accumulator is absorbed into it (and
removed), the others are kept in order. -/
def mergeScan : Finset ℕ → List (Finset ℕ) → Finset ℕ × List (Finset ℕ)
  | c, [] => (c, [])
  | c, g :: gs =>
    if (c ∩ g).Nonempty then mergeScan (c ∪ g) gs
    else
      let r := mergeScan c gs
      (r.1, g :: r.2)

/-- The outer `while initial_groups` loop (Simulation.py lines 350-359),
written with explicit fuel so that it computes by reduction; each iteration
consumes at least the popped head, so fuel equal to the initial length never
runs out (the fuel-exhausted branch is unreachable). -/
def mergeGroupsGo : ℕ → List (Finset ℕ) → List (Finset ℕ)
  | 0, _ => []
  | _, [] => []
  | fuel + 1, g :: gs =>
    (mergeScan g gs).1 :: mergeGroupsGo fuel (mergeScan g gs).2

/-- The merge phase of `Simulation._get_boid_groups`. -/
def mergeGroups (gs : List (Finset ℕ)) : List (Finset ℕ) :=
  mergeGroupsGo gs.length gs

/-- Model of `Simulation._get_boid_groups` (Simulation.py lines 337-360), returning
groups of boid indices. -/
def get_boid_groups (s : SimState) : List (Finset ℕ) :=
  mergeGroups (initialGroups s)

/-- The edge relation of the spec's undirected closeness graph (§4.2 step 3):
two distinct agents within the close-distance threshold. -/
def closeEdge (s : SimState) (i j : ℕ) : Prop := i ≠ j ∧ boidClose s i j

/-- Two agents are in the same connected component of the closeness
graph. -/
def Linked (s : SimState) (i j : ℕ) : Prop :=
  Relation.ReflTransGen (closeEdge s) i j

/-- All members of a group lie in one connected component of the closeness
graph. -/
def AllLinked (s : SimState) (g : Finset ℕ) : Prop :=
  ∀ a ∈ g, ∀ b ∈ g, Linked s a b

attribute [local semireducible] Rat.add Rat.mul Rat.sub Rat.inv Rat.ofScientific

/-! Concrete configurations used by counterexamples and witnesses. -/

/-- First agent of the C1 ordering counterexample. -/
def c1A : Boid :=
  { boid_size := 10
    separation_radius := 0
    cohesion_radius := 100
    alignment_radius := 0
    max_speed := 5
    max_force := 8
    position := ⟨0, 0, 0⟩
    velocity := ⟨-5, 0, 0⟩
    acceleration := 0 }

/-- Second agent of the C1 ordering counterexample. -/
def c1B : Boid :=
  { boid_size := 10
    separation_radius := 0
    cohesion_radius := 0
    alignment_radius := 100
    max_speed := 5
    max_force := 5
    position := ⟨10, 0, 0⟩
    velocity := ⟨0, 0, 0⟩
    acceleration := 0 }

/-- Deterministic oracle (no random impulse) for the C1 counterexample. -/
def c1Os : ℕ → FlockOracle := fun _ => ⟨false, ⟨1, 0, 0⟩, true⟩

/-- Post-tick state of `c1A` under the source's interleaved pass. -/
def c1OutA : Boid :=
  { c1A with position := ⟨5, 0, 0⟩, velocity := ⟨5, 0, 0⟩ }

/-- Post-tick state of `c1B` under the source's interleaved pass. -/
def c1OutB : Boid :=
  { c1B with position := ⟨15, 0, 0⟩, velocity := ⟨5, 0, 0⟩ }

/-- A boid placed at abscissa `q` for the clustering configurations. -/
def c2LineBoid (q : ℚ) : Boid :=
  { boid_size := 0
    separation_radius := 0
    cohesion_radius := 0
    alignment_radius := 0
    max_speed := 5
    max_force := 1
    position := ⟨q, 0, 0⟩
    velocity := ⟨1, 0, 0⟩
    acceleration := 0 }

/-- Simulation state with boids on a line at the given abscissas and
close-distance threshold 3/2 (boid_size 3/2, cohesion_radius 0), so that
exactly the pairs at distance 1 are close. -/
def c2Line (xs : List ℚ) : SimState :=
  { boids := xs.map c2LineBoid
    num_boids := xs.length
    boid_size := 3 / 2
    separation_radius := 0
    cohesion_radius := 0
    alignment_radius := 0
    max_speed := 5
    max_force := 1
    pause_event := false
    stop_event := false
    update_event := false
    running := true }

/-- Four agents in list order a(0), y(3), u(1), w(2): edges a-u, u-w, w-y
form one path component, but y's close set is scanned before the scan
accumulator reaches it. -/
def c2Quad : SimState := c2Line [0, 3, 1, 2]

/-- The spec's 4-agent layout: A(0)-B(1) and B(2)-C close, A-C not, plus an
isolated fourth agent at 100. -/
def c2ABC : SimState := c2Line [0, 1, 2, 100]

/-- The single boid of the C3 state. -/
def c3Boid : Boid :=
  { boid_size := 10
    separation_radius := 10
    cohesion_radius := 70
    alignment_radius := 50
    max_speed := 5
    max_force := 1
    position := ⟨0, 0, 0⟩
    velocity := ⟨1, 0, 0⟩
    acceleration := 0 }

/-- A running state with one boid whose cohesion radius is 70. -/
def c3State : SimState :=
  { boids := [c3Boid]
    num_boids := 1
    boid_size := 10
    separation_radius := 2
    cohesion_radius := 7
    alignment_radius := 5
    max_speed := 5
    max_force := 1
    pause_event := false
    stop_event := false
    update_event := false
    running := true }

/-- A parameter snapshot with cohesion ratio 9 (so derived radius 90). -/
def c3Params : Params := ⟨1, 10, 2, 9, 5, 5, 1⟩

/-- Witness boid for the integration speed invariant. -/
def c4Boid : Boid :=
  { boid_size := 1
    separation_radius := 0
    cohesion_radius := 0
    alignment_radius := 0
    max_speed := 5
    max_force := 1
    position := ⟨0, 0, 0⟩
    velocity := ⟨3, 0, 0⟩
    acceleration := 0 }

/-- The boid `c4Boid` after one integration. -/
def c4BoidAfter : Boid :=
  { c4Boid with position := ⟨5, 0, 0⟩, velocity := ⟨5, 0, 0⟩ }

/-- Self agent of the C5 steering counterexample: max_speed 5, max_force 2,
alignment radius 100. -/
def c5Self : Boid :=
  { boid_size := 0
    separation_radius := 0
    cohesion_radius := 0
    alignment_radius := 100
    max_speed := 5
    max_force := 2
    position := ⟨0, 0, 0⟩
    velocity := ⟨4, 0, 0⟩
    acceleration := 0 }

/-- The single neighbour of the C5 counterexample. -/
def c5Nb : Boid :=
  { boid_size := 0
    separation_radius := 0
    cohesion_radius := 0
    alignment_radius := 0
    max_speed := 5
    max_force := 1
    position := ⟨10, 0, 0⟩
    velocity := ⟨5, 0, 0⟩
    acceleration := 0 }

/-- A boid whose accumulated force exactly cancels its velocity. -/
def c6Boid : Boid :=
  { boid_size := 10
    separation_radius := 1
    cohesion_radius := 7
    alignment_radius := 5
    max_speed := 5
    max_force := 1
    position := ⟨2, 3, 4⟩
    velocity := ⟨1, 0, 0⟩
    acceleration := ⟨-1, 0, 0⟩ }

/-- The single boid of the C7 stop-signal scenario. -/
def c7Boid : Boid :=
  { boid_size := 10
    separation_radius := 0
    cohesion_radius := 0
    alignment_radius := 0
    max_speed := 5
    max_force := 1
    position := ⟨0, 0, 0⟩
    velocity := ⟨3, 0, 0⟩
    acceleration := 0 }

/-- A running, unpaused state in which the stop event has just been set. -/
def c7State : SimState :=
  { boids := [c7Boid]
    num_boids := 1
    boid_size := 10
    separation_radius := 2
    cohesion_radius := 7
    alignment_radius := 5
    max_speed := 5
    max_force := 1
    pause_event := false
    stop_event := true
    update_event := false
    running := true }

/-- Tick oracle for the C7 scenario (no quit event, no random impulse). -/
def c7Oracle : TickOracle :=
  ⟨false, fun _ => ⟨0, 0, 0, ⟨1, 0, 0⟩⟩, fun _ => 0,
    fun _ => ⟨false, ⟨1, 0, 0⟩, true⟩⟩

/-- The state after the tick that observes the stop event: `running` is
cleared, but the physics pass has still moved the boid. -/
def c7After : SimState :=
  { c7State with
    boids := [{ c7Boid with position := ⟨5, 0, 0⟩, velocity := ⟨5, 0, 0⟩ }]
    running := false }

/-- The pre-existing boid of the C8 paused-tick scenario. -/
def c8Boid : Boid :=
  { boid_size := 10
    separation_radius := 10
    cohesion_radius := 70
    alignment_radius := 50
    max_speed := 5
    max_force := 1
    position := ⟨0, 0, 0⟩
    velocity := ⟨1, 0, 0⟩
    acceleration := 0 }

/-- A paused state with a pending resize request (grow from 1 to 2). -/
def c8State : SimState :=
  { boids := [c8Boid]
    num_boids := 2
    boid_size := 10
    separation_radius := 2
    cohesion_radius := 7
    alignment_radius := 5
    max_speed := 5
    max_force := 1
    pause_event := true
    stop_event := false
    update_event := true
    running := true }

/-- Tick oracle for the C8 scenario. -/
def c8Oracle : TickOracle :=
  ⟨false, fun _ => ⟨1, 2, 3, ⟨3, 0, 0⟩⟩, fun _ => 0,
    fun _ => ⟨false, ⟨1, 0, 0⟩, true⟩⟩

/-- The boid grown during the C8 paused tick. -/
def c8NewBoid : Boid :=
  { boid_size := 10
    separation_radius := 10
    cohesion_radius := 70
    alignment_radius := 50
    max_speed := 5
    max_force := 1
    position := ⟨1, 2, 3⟩
    velocity := ⟨5 / 3, 0, 0⟩
    acceleration := 0 }

/-- The C8 state after its paused tick: resize applied, kinematics of the
pre-existing boid untouched. -/
def c8After : SimState :=
  { c8State with boids := [c8Boid, c8NewBoid], update_event := false }

/-- A boid created from the raw template (10, 2, 7, 5, 5, 1); its derived
cohesion radius is 70. -/
def c9Boid : Boid :=
  { boid_size := 10
    separation_radius := 10
    cohesion_radius := 70
    alignment_radius := 50
    max_speed := 5
    max_force := 1
    position := ⟨0, 0, 0⟩
    velocity := ⟨5 / 3, 0, 0⟩
    acceleration := 0 }

/-- A state holding `c9Boid` and the raw template fields, as after
`Simulation.__init__`. -/
def c9State : SimState :=
  { boids := [c9Boid]
    num_boids := 2
    boid_size := 10
    separation_radius := 2
    cohesion_radius := 7
    alignment_radius := 5
    max_speed := 5
    max_force := 1
    pause_event := false
    stop_event := false
    update_event := false
    running := true }

/-- The same template values delivered again as a live update. -/
def c9Params : Params := ⟨2, 10, 2, 7, 5, 5, 1⟩

/-- Seed oracle for the C9 grow. -/
def c9Seeds : ℕ → NewBoidSeed := fun _ => ⟨0, 0, 0, ⟨3, 0, 0⟩⟩

/-- Witness boid for the construction-speed claim. -/
def c10Boid : Boid :=
  { boid_size := 10
    separation_radius := 10
    cohesion_radius := 70
    alignment_radius := 50
    max_speed := 5
    max_force := 1
    position := ⟨0, 0, 0⟩
    velocity := ⟨5 / 3, 0, 0⟩
    acceleration := 0 }

/-! Basic lemmas about the vector model. -/

@[simp]
theorem V3.zero_x : (0 : V3).x = 0 := rfl

@[simp]
theorem V3.zero_y : (0 : V3).y = 0 := rfl

@[simp]
theorem V3.zero_z : (0 : V3).z = 0 := rfl

@[simp]
theorem V3.add_x (a b : V3) : (a + b).x = a.x + b.x := rfl

@[simp]
theorem V3.add_y (a b : V3) : (a + b).y = a.y + b.y := rfl

@[simp]
theorem V3.add_z (a b : V3) : (a + b).z = a.z + b.z := rfl

@[simp]
theorem V3.sub_x (a b : V3) : (a - b).x = a.x - b.x := rfl

@[simp]
theorem V3.sub_y (a b : V3) : (a - b).y = a.y - b.y := rfl

@[simp]
theorem V3.sub_z (a b : V3) : (a - b).z = a.z - b.z := rfl

@[simp]
theorem V3.smul_x (c : ℚ) (a : V3) : (c • a).x = c * a.x := rfl

@[simp]
theorem V3.smul_y (c : ℚ) (a : V3) : (c • a).y = c * a.y := rfl

@[simp]
theorem V3.smul_z (c : ℚ) (a : V3) : (c • a).z = c * a.z := rfl

theorem normSq_nonneg (v : V3) : 0 ≤ normSq v := by
  unfold normSq; positivity

theorem normSq_eq_zero_iff (v : V3) : normSq v = 0 ↔ v = 0 := by
  obtain ⟨x, y, z⟩ := v
  unfold normSq
  constructor
  · intro h
    have hx : x = 0 := by nlinarith [sq_nonneg x, sq_nonneg y, sq_nonneg z]
    have hy : y = 0 := by nlinarith [sq_nonneg x, sq_nonneg y, sq_nonneg z]
    have hz : z = 0 := by nlinarith [sq_nonneg x, sq_nonneg y, sq_nonneg z]
    subst hx; subst hy; subst hz; rfl
  · intro h
    rw [show ({ x := x, y := y, z := z } : V3) = 0 from h]
    norm_num

theorem normSq_smul (c : ℚ) (v : V3) : normSq (c • v) = c ^ 2 * normSq v := by
  simp only [normSq, V3.smul_x, V3.smul_y, V3.smul_z]; ring

theorem isqrtGo_pos (fuel n : ℕ) (hn : 0 < n) : 0 < isqrtGo (fuel + 1) n := by
  rw [isqrtGo]
  simp only [Nat.pos_iff_ne_zero.mp hn, if_false]
  by_cases h : (2 * isqrtGo fuel (n / 4) + 1) * (2 * isqrtGo fuel (n / 4) + 1) ≤ n
  · simp only [h, if_true]; omega
  · simp only [h, if_false]
    rcases Nat.eq_zero_or_pos (2 * isqrtGo fuel (n / 4)) with h0 | hpos
    · exfalso; apply h; rw [h0]; simpa using hn
    · exact hpos

theorem isqrt_pos (n : ℕ) (hn : 0 < n) : 0 < isqrt n := by
  obtain ⟨m, rfl⟩ : ∃ m, n = m + 1 := ⟨n - 1, by omega⟩
  exact isqrtGo_pos m (m + 1) hn

theorem ratSqrt_pos (q : ℚ) (hq : 0 < q) : 0 < ratSqrt q := by
  unfold ratSqrt
  have hnum : 0 < q.num.toNat := by
    have := Rat.num_pos.mpr hq
    omega
  have hden : 0 < q.den := q.pos
  apply div_pos
  · exact_mod_cast isqrt_pos _ hnum
  · exact_mod_cast isqrt_pos _ hden

theorem ratSqrt_zero : ratSqrt 0 = 0 := by decide

theorem vlen_pos_of_normSq_ne (v : V3) (h : normSq v ≠ 0) : 0 < vlen v :=
  ratSqrt_pos _ (lt_of_le_of_ne (normSq_nonneg v) (Ne.symm h))

theorem normSq_eq_zero_of_not_vlen_pos (v : V3) (h : ¬ 0 < vlen v) :
    normSq v = 0 := by
  by_contra hne
  exact h (vlen_pos_of_normSq_ne v hne)

theorem scaleToLength_eq_some {v w : V3} {L : ℚ} :
    scaleToLength v L = some w ↔ normSq v ≠ 0 ∧ w = scaleToLengthT v L := by
  unfold scaleToLength
  split
  · simp_all
  · simp_all [eq_comm]

theorem scaleToLength_eq_none {v : V3} {L : ℚ} :
    scaleToLength v L = none ↔ normSq v = 0 := by
  unfold scaleToLength
  split
  · simp_all
  · simp_all

theorem normSq_scaleToLengthT (v : V3) (L : ℚ) (hnz : normSq v ≠ 0)
    (hx : IsSqrtExact (normSq v)) : normSq (scaleToLengthT v L) = L ^ 2 := by
  unfold scaleToLengthT
  rw [normSq_smul]
  have hs : ratSqrt (normSq v) ^ 2 = normSq v := hx
  have hsne : ratSqrt (normSq v) ≠ 0 := by
    intro h0
    rw [h0] at hs
    simp at hs
    exact hnz hs.symm
  rw [div_pow, hs]
  field_simp

theorem normSq_scaleToLength {v w : V3} {L : ℚ}
    (h : scaleToLength v L = some w) (hx : IsSqrtExact (normSq v)) :
    normSq w = L ^ 2 := by
  obtain ⟨hnz, rfl⟩ := scaleToLength_eq_some.mp h
  exact normSq_scaleToLengthT v L hnz hx

theorem Boid.update_eq_some {b b' : Boid} :
    b.update = some b' ↔
      ∃ v, scaleToLength (b.velocity + b.acceleration) b.max_speed = some v ∧
        b' = { b with
          velocity := v
          position := b.position + v
          acceleration := 0 } := by
  unfold Boid.update
  cases h : scaleToLength (b.velocity + b.acceleration) b.max_speed <;>
    simp [h, Option.bind, eq_comm]

/-- C4: immediately after a successful integration (`Boid.update`), the
squared velocity magnitude equals `max_speed ^ 2` — i.e. the speed is
exactly `max_speed` up to the exactness of the square root — regardless of
the accumulated force, and the accumulator is reset to zero. -/
theorem c4_integrate_speed (b b' : Boid) (h : b.update = some b')
    (hx : IsSqrtExact (normSq (b.velocity + b.acceleration))) :
    normSq b'.velocity = b.max_speed ^ 2 ∧ b'.acceleration = 0 := by
  obtain ⟨v, hv, rfl⟩ := Boid.update_eq_some.mp h
  exact ⟨normSq_scaleToLength hv hx, rfl⟩

/-- Witness for C4 at a concrete boid with velocity (3,0,0), zero force and
max_speed 5. -/
theorem c4_integrate_speed_witness :
    c4Boid.update = some c4BoidAfter ∧
      IsSqrtExact (normSq (c4Boid.velocity + c4Boid.acceleration)) ∧
      (normSq c4BoidAfter.velocity = c4Boid.max_speed ^ 2 ∧
        c4BoidAfter.acceleration = 0) :=
  ⟨by decide, by decide,
    c4_integrate_speed c4Boid c4BoidAfter (by decide) (by decide)⟩

/-- C10: a freshly constructed boid has squared speed `(max_speed/3) ^ 2`,
which differs from `max_speed ^ 2` whenever `max_speed ≠ 0`: the
construction-time speed is `max_speed/3`, not `max_speed`. -/
theorem c10_init_speed (x y z sz sr cr ar ms mf : ℚ) (rvel : V3) (b : Boid)
    (h : Boid.init x y z sz sr cr ar ms mf rvel = some b)
    (hx : IsSqrtExact (normSq rvel)) :
    normSq b.velocity = (ms / 3) ^ 2 ∧
      (ms ≠ 0 → normSq b.velocity ≠ ms ^ 2) := by
  unfold Boid.init at h
  obtain ⟨v, hv, rfl⟩ := Option.map_eq_some'.mp h
  have hspeed : normSq v = (ms / 3) ^ 2 := normSq_scaleToLength hv hx
  refine ⟨hspeed, fun hms heq => ?_⟩
  rw [hspeed, div_pow] at heq
  norm_num at heq
  have h2 : ms ^ 2 ≠ 0 := pow_ne_zero 2 hms
  apply h2
  linarith

/-- Witness for C10: the constructor applied to the template
(10, 2, 7, 5, 5, 1) with initial draw (3,0,0). -/
theorem c10_init_speed_witness :
    Boid.init 0 0 0 10 2 7 5 5 1 ⟨3, 0, 0⟩ = some c10Boid ∧
      IsSqrtExact (normSq (⟨3, 0, 0⟩ : V3)) ∧
      (normSq c10Boid.velocity = ((5 : ℚ) / 3) ^ 2 ∧
        ((5 : ℚ) ≠ 0 → normSq c10Boid.velocity ≠ (5 : ℚ) ^ 2)) :=
  ⟨by decide, by decide,
    c10_init_speed 0 0 0 10 2 7 5 5 1 ⟨3, 0, 0⟩ c10Boid (by decide) (by decide)⟩

/-- C6 counterexample: `Boid.update` is *not* protected by a zero-length
check.  For a boid whose accumulated force exactly cancels its velocity,
`velocity + acceleration` is the zero vector and `update` raises
(`scale_to_length` on a zero-length vector): the model returns `none`
instead of absorbing the degenerate case. -/
theorem c6_counterexample :
    c6Boid.velocity + c6Boid.acceleration = 0 ∧ c6Boid.update = none := by
  constructor
  · decide
  · decide

/-- C6 (amended): the scalings of the averaged neighbour contributions are
guarded by explicit checks, but the integration rescale (and the underlying
scale-to-length primitive) are not: `Boid.update` fails exactly when
`velocity + acceleration` has zero length, and `scaleToLength` fails exactly
on a zero-length input (so the unguarded steering rescale and the
random-impulse normalize can also raise). -/
theorem c6_update_failure :
    (∀ b : Boid, b.update = none ↔
      normSq (b.velocity + b.acceleration) = 0) ∧
    (∀ (v : V3) (L : ℚ), scaleToLength v L = none ↔ normSq v = 0) := by
  constructor
  · intro b
    cases h : scaleToLength (b.velocity + b.acceleration) b.max_speed with
    | none => simp [Boid.update, h, Option.bind, scaleToLength_eq_none.mp h]
    | some v =>
      have hnz : normSq (b.velocity + b.acceleration) ≠ 0 := by
        intro hz
        rw [scaleToLength_eq_none.mpr hz] at h
        exact Option.noConfusion h
      simp [Boid.update, h, Option.bind, hnz]
  · intro v L
    exact scaleToLength_eq_none

/-! Lemmas about the force-accumulation folds. -/

theorem foldl_eq_of_steps_id {α : Type} {f : V3 × ℕ → α → V3 × ℕ}
    {P : α → Prop} (hf : ∀ acc b, ¬ P b → f acc b = acc) :
    ∀ (l : List α) (acc : V3 × ℕ), (∀ b ∈ l, ¬ P b) → l.foldl f acc = acc := by
  intro l
  induction l with
  | nil => intro acc _; rfl
  | cons b t ih =>
    intro acc h
    rw [List.foldl_cons, hf acc b (h b (by simp))]
    exact ih acc fun x hx => h x (by simp [hx])

theorem foldl_count_le {α : Type} {f : V3 × ℕ → α → V3 × ℕ}
    (hf : ∀ acc b, f acc b = acc ∨ (f acc b).2 = acc.2 + 1) :
    ∀ (l : List α) (acc : V3 × ℕ), acc.2 ≤ (l.foldl f acc).2 := by
  intro l
  induction l with
  | nil => intro acc; exact le_refl _
  | cons b t ih =>
    intro acc
    rw [List.foldl_cons]
    rcases hf acc b with h | h
    · rw [h]; exact ih acc
    · calc acc.2 ≤ (f acc b).2 := by omega
        _ ≤ _ := ih (f acc b)

theorem foldl_eq_of_count_eq {α : Type} {f : V3 × ℕ → α → V3 × ℕ}
    (hf : ∀ acc b, f acc b = acc ∨ (f acc b).2 = acc.2 + 1) :
    ∀ (l : List α) (acc : V3 × ℕ),
      (l.foldl f acc).2 = acc.2 → l.foldl f acc = acc := by
  intro l
  induction l with
  | nil => intro acc _; rfl
  | cons b t ih =>
    intro acc hc
    rw [List.foldl_cons] at hc ⊢
    rcases hf acc b with h | h
    · rw [h] at hc ⊢; exact ih acc hc
    · exfalso
      have := foldl_count_le hf t (f acc b)
      omega

theorem sepStep_id (self : Boid) (acc : V3 × ℕ) (b : Boid)
    (h : ¬ sepClose self b) : sepStep self acc b = acc := by
  simp [sepStep, h]

theorem sepStep_count (self : Boid) (acc : V3 × ℕ) (b : Boid) :
    sepStep self acc b = acc ∨ (sepStep self acc b).2 = acc.2 + 1 := by
  by_cases h : sepClose self b
  · right; simp [sepStep, h]
  · left; exact sepStep_id self acc b h

theorem alignStep_id (self : Boid) (acc : V3 × ℕ) (b : Boid)
    (h : ¬ alignClose self b) : alignStep self acc b = acc := by
  simp [alignStep, h]

theorem alignStep_count (self : Boid) (acc : V3 × ℕ) (b : Boid) :
    alignStep self acc b = acc ∨ (alignStep self acc b).2 = acc.2 + 1 := by
  by_cases h : alignClose self b
  · right; simp [alignStep, h]
  · left; exact alignStep_id self acc b h

theorem cohStep_id (self : Boid) (acc : V3 × ℕ) (b : Boid)
    (h : ¬ cohClose self b) : cohStep self acc b = acc := by
  simp [cohStep, h]

theorem cohStep_count (self : Boid) (acc : V3 × ℕ) (b : Boid) :
    cohStep self acc b = acc ∨ (cohStep self acc b).2 = acc.2 + 1 := by
  by_cases h : cohClose self b
  · right; simp [cohStep, h]
  · left; exact cohStep_id self acc b h

/-- C5 (amended): each of separation/alignment/cohesion returns the zero
vector when no neighbour passes its radius test; otherwise any nonzero
result is produced by `scaleToLength (desired - velocity) max_force`, an
operation that *sets* the squared magnitude to exactly `max_force ^ 2`
(first conjunct) rather than clamping it — it also increases magnitudes
below `max_force`. -/
theorem c5_steering :
    (∀ (v : V3) (L : ℚ) (w : V3), scaleToLength v L = some w →
      IsSqrtExact (normSq v) → normSq w = L ^ 2) ∧
    (∀ (self : Boid) (others : List Boid),
      (∀ b ∈ others, ¬ sepClose self b) → self.separate others = some 0) ∧
    (∀ (self : Boid) (others : List Boid),
      (∀ b ∈ others, ¬ alignClose self b) → self.align others = some 0) ∧
    (∀ (self : Boid) (others : List Boid),
      (∀ b ∈ others, ¬ cohClose self b) → self.cohesion others = some 0) ∧
    (∀ (self : Boid) (others : List Boid) (w : V3),
      self.separate others = some w →
      w = 0 ∨ ∃ u, normSq u ≠ 0 ∧ scaleToLength u self.max_force = some w) ∧
    (∀ (self : Boid) (others : List Boid) (w : V3),
      self.align others = some w →
      w = 0 ∨ ∃ u, normSq u ≠ 0 ∧ scaleToLength u self.max_force = some w) ∧
    (∀ (self : Boid) (others : List Boid) (w : V3),
      self.cohesion others = some w →
      w = 0 ∨ ∃ u, normSq u ≠ 0 ∧ scaleToLength u self.max_force = some w) := by
  refine ⟨fun v L w h hx => normSq_scaleToLength h hx, ?_, ?_, ?_, ?_, ?_, ?_⟩
  · intro self others h
    unfold Boid.separate
    rw [foldl_eq_of_steps_id (sepStep_id self) others (0, 0) h]
    norm_num
  · intro self others h
    unfold Boid.align
    rw [foldl_eq_of_steps_id (alignStep_id self) others (0, 0) h]
    norm_num
  · intro self others h
    unfold Boid.cohesion
    rw [foldl_eq_of_steps_id (cohStep_id self) others (0, 0) h]
    norm_num
  · intro self others w h
    unfold Boid.separate at h
    set fc := others.foldl (sepStep self) ((0 : V3), (0 : ℕ)) with hfc
    by_cases h2 : 0 < fc.2
    · rw [if_pos h2] at h
      by_cases h3 : 0 < vlen (((1 : ℚ) / (fc.2 : ℚ)) • fc.1)
      · rw [if_pos h3] at h
        exact Or.inr ⟨_, (scaleToLength_eq_some.mp h).1, h⟩
      · rw [if_neg h3] at h
        refine Or.inl ?_
        have hz := normSq_eq_zero_of_not_vlen_pos _ h3
        rw [(normSq_eq_zero_iff _).mp hz] at h
        exact (Option.some.inj h).symm
    · rw [if_neg h2] at h
      refine Or.inl ?_
      have hfz : fc = (0, 0) :=
        foldl_eq_of_count_eq (sepStep_count self) others (0, 0)
          (by rw [← hfc]; show fc.2 = 0; omega)
      rw [hfz] at h
      exact (Option.some.inj h).symm
  · intro self others w h
    unfold Boid.align at h
    set fc := others.foldl (alignStep self) ((0 : V3), (0 : ℕ)) with hfc
    by_cases h2 : 0 < fc.2
    · rw [if_pos h2] at h
      by_cases h3 : 0 < vlen (((1 : ℚ) / (fc.2 : ℚ)) • fc.1)
      · rw [if_pos h3] at h
        exact Or.inr ⟨_, (scaleToLength_eq_some.mp h).1, h⟩
      · rw [if_neg h3] at h
        refine Or.inl ?_
        have hz := normSq_eq_zero_of_not_vlen_pos _ h3
        rw [(normSq_eq_zero_iff _).mp hz] at h
        exact (Option.some.inj h).symm
    · rw [if_neg h2] at h
      refine Or.inl ?_
      have hfz : fc = (0, 0) :=
        foldl_eq_of_count_eq (alignStep_count self) others (0, 0)
          (by rw [← hfc]; show fc.2 = 0; omega)
      rw [hfz] at h
      exact (Option.some.inj h).symm
  · intro self others w h
    unfold Boid.cohesion at h
    set fc := others.foldl (cohStep self) ((0 : V3), (0 : ℕ)) with hfc
    by_cases h2 : 0 < fc.2
    · rw [if_pos h2] at h
      by_cases h3 : 0 < vlen (((1 : ℚ) / (fc.2 : ℚ)) • fc.1)
      · rw [if_pos h3] at h
        exact Or.inr ⟨_, (scaleToLength_eq_some.mp h).1, h⟩
      · rw [if_neg h3] at h
        refine Or.inl ?_
        have hz := normSq_eq_zero_of_not_vlen_pos _ h3
        rw [(normSq_eq_zero_iff _).mp hz] at h
        exact (Option.some.inj h).symm
    · rw [if_neg h2] at h
      refine Or.inl ?_
      have hfz : fc = (0, 0) :=
        foldl_eq_of_count_eq (cohStep_count self) others (0, 0)
          (by rw [← hfc]; show fc.2 = 0; omega)
      rw [hfz] at h
      exact (Option.some.inj h).symm

/-- Witness for C5 at concrete inputs: zero neighbours give the zero
alignment force, and the final scaling really sets the squared norm to
`max_force ^ 2 = 4` on the vector (1,0,0). -/
theorem c5_steering_witness :
    (∀ b ∈ ([] : List Boid), ¬ alignClose c5Self b) ∧
      Boid.align c5Self [] = some 0 ∧
      scaleToLength ⟨1, 0, 0⟩ 2 = some ⟨2, 0, 0⟩ ∧
      IsSqrtExact (normSq (⟨1, 0, 0⟩ : V3)) ∧
      normSq (⟨2, 0, 0⟩ : V3) = 2 ^ 2 :=
  ⟨by simp, c5_steering.2.2.1 c5Self [] (by simp), by decide, by decide,
    c5_steering.1 ⟨1, 0, 0⟩ 2 ⟨2, 0, 0⟩ (by decide) (by decide)⟩

/-- C5 counterexample: with one aligned neighbour, the steering difference
(desired minus current velocity) is (1,0,0) with squared norm 1, *below*
the squared force limit `max_force ^ 2 = 4`, yet the returned force is
(2,0,0): its magnitude was increased to exactly `max_force`, so the final
scaling is not a clamp (a clamp never increases the magnitude). -/
theorem c5_counterexample :
    Boid.align c5Self [c5Nb] = some ⟨2, 0, 0⟩ ∧
      scaleToLengthT c5Nb.velocity c5Self.max_speed - c5Self.velocity
        = ⟨1, 0, 0⟩ ∧
      normSq (⟨1, 0, 0⟩ : V3) < c5Self.max_force ^ 2 ∧
      normSq (⟨2, 0, 0⟩ : V3) ≠ normSq (⟨1, 0, 0⟩ : V3) := by
  exact ⟨by decide, by decide, by decide, by decide⟩

/-- C3 counterexample: the controller's `_update_params`, a pure
controller-thread action with no tick involved, rewrites an existing agent's
parameters directly — the agent's cohesion radius changes from 70 to 90 the
moment the function runs, so the control unit does not restrict itself to
the signal/parameter channel polled at tick boundaries (and, running
concurrently with the GIL-interleaved tick loop, can land between two
agents' force computations). -/
theorem c3_counterexample :
    (update_params c3State c3Params).boids.map Boid.cohesion_radius = [90] ∧
      c3State.boids.map Boid.cohesion_radius = [70] ∧
      (update_params c3State c3Params).update_event = true ∧
      ((90 : ℚ) ≠ 70) := by decide

/-- C3 (amended): `_update_params` raises the update event and
*synchronously* (on the controller thread, not at a tick boundary) rewrites
the Simulation template and every existing agent's radii/limits, derived
once from the raw snapshot; agents' kinematic state is untouched, and the
tick-boundary handling of the event flag performs only the population
resize. -/
theorem c3_update_params_direct (s : SimState) (p : Params) :
    (update_params s p).update_event = true ∧
    (update_params s p).boids.length = s.boids.length ∧
    ∀ i, i < s.boids.length →
      ((update_params s p).boids.getD i default).position
          = (s.boids.getD i default).position ∧
      ((update_params s p).boids.getD i default).velocity
          = (s.boids.getD i default).velocity ∧
      ((update_params s p).boids.getD i default).acceleration
          = (s.boids.getD i default).acceleration ∧
      ((update_params s p).boids.getD i default).separation_radius
          = p.boid_size * p.separation_radius / 2 ∧
      ((update_params s p).boids.getD i default).cohesion_radius
          = p.boid_size * p.cohesion_radius ∧
      ((update_params s p).boids.getD i default).alignment_radius
          = p.boid_size * p.alignment_radius ∧
      ((update_params s p).boids.getD i default).max_speed = p.max_speed ∧
      ((update_params s p).boids.getD i default).max_force = p.max_force := by
  refine ⟨rfl, by simp [update_params, SimState.update_args], ?_⟩
  intro i hi
  have hb : (update_params s p).boids.getD i default
      = (s.boids.getD i default).update_args p.boid_size p.separation_radius
          p.cohesion_radius p.alignment_radius p.max_speed p.max_force := by
    show ((s.boids.map fun b => b.update_args p.boid_size p.separation_radius
        p.cohesion_radius p.alignment_radius p.max_speed p.max_force).getD
        i default) = _
    rw [List.getD_eq_getElem?_getD, List.getD_eq_getElem?_getD]
    simp [List.getElem?_map, List.getElem?_eq_getElem hi]
  rw [hb]
  exact ⟨rfl, rfl, rfl, rfl, rfl, rfl, rfl, rfl⟩

/-- Witness for C3 (amended) at the concrete one-boid state. -/
theorem c3_update_params_direct_witness :
    (0 : ℕ) < c3State.boids.length ∧
      ((update_params c3State c3Params).boids.getD 0 default).cohesion_radius
        = c3Params.boid_size * c3Params.cohesion_radius :=
  ⟨by decide,
    ((c3_update_params_direct c3State c3Params).2.2 0 (by decide)).2.2.2.2.1⟩

/-- C9 (code bug): growing the population uses the Simulation's parameter
fields, but `Simulation._update_args` has already stored *derived* radii in
those fields, and `Boid.__init__` derives again.  Before any live update a
grown agent matches an existing one (cohesion radius 70 = 70); after a live
update delivering the *same raw template*, the existing (template-updated)
agent keeps cohesion radius 70 while the newly grown agent gets
10 * 70 = 700. -/
theorem c9_grow_radius_mismatch :
    Boid.init 0 0 0 10 2 7 5 5 1 ⟨3, 0, 0⟩ = some c9Boid ∧
      (addBoids c9Seeds 1 c9State).map
          (fun s => s.boids.map Boid.cohesion_radius) = some [70, 70] ∧
      (addBoids c9Seeds 1 (update_params c9State c9Params)).map
          (fun s => s.boids.map Boid.cohesion_radius) = some [70, 700] ∧
      ((700 : ℚ) ≠ 70) := by decide

/-! Lemmas about the run-loop state transitions. -/

theorem pollEvents_boids (o : TickOracle) (s : SimState) :
    (pollEvents o s).boids = s.boids := by
  by_cases hq : o.quit <;> by_cases hs : s.stop_event <;>
    simp [pollEvents, hq, hs]

theorem pollEvents_num_boids (o : TickOracle) (s : SimState) :
    (pollEvents o s).num_boids = s.num_boids := by
  by_cases hq : o.quit <;> by_cases hs : s.stop_event <;>
    simp [pollEvents, hq, hs]

theorem pollEvents_stop (o : TickOracle) (s : SimState) :
    (pollEvents o s).stop_event = s.stop_event := by
  by_cases hq : o.quit <;> by_cases hs : s.stop_event <;>
    simp [pollEvents, hq, hs]

theorem pollEvents_pause (o : TickOracle) (s : SimState) :
    (pollEvents o s).pause_event = s.pause_event := by
  by_cases hq : o.quit <;> by_cases hs : s.stop_event <;>
    simp [pollEvents, hq, hs]

theorem pollEvents_update (o : TickOracle) (s : SimState) :
    (pollEvents o s).update_event = s.update_event := by
  by_cases hq : o.quit <;> by_cases hs : s.stop_event <;>
    simp [pollEvents, hq, hs]

theorem pollEvents_running_of_stop (o : TickOracle) (s : SimState)
    (h : s.stop_event = true) : (pollEvents o s).running = false := by
  by_cases hq : o.quit <;> simp [pollEvents, hq, h]

theorem addBoids_flags {seeds : ℕ → NewBoidSeed} {n : ℕ} {s s₁ : SimState}
    (h : addBoids seeds n s = some s₁) :
    s₁.running = s.running ∧ s₁.stop_event = s.stop_event ∧
      s₁.pause_event = s.pause_event ∧ s₁.update_event = s.update_event := by
  unfold addBoids at h
  obtain ⟨bs, hbs, rfl⟩ := Option.map_eq_some'.mp h
  exact ⟨rfl, rfl, rfl, rfl⟩

theorem removeBoids_flags (choice : ℕ → ℕ) (n : ℕ) (s : SimState) :
    (removeBoids choice n s).running = s.running ∧
      (removeBoids choice n s).stop_event = s.stop_event ∧
      (removeBoids choice n s).pause_event = s.pause_event ∧
      (removeBoids choice n s).update_event = s.update_event :=
  ⟨rfl, rfl, rfl, rfl⟩

theorem applyResize_flags {o : TickOracle} {s s₁ : SimState}
    (h : applyResize o s = some s₁) :
    s₁.running = s.running ∧ s₁.stop_event = s.stop_event ∧
      s₁.pause_event = s.pause_event := by
  unfold applyResize at h
  by_cases hu : s.update_event
  · rw [if_pos hu] at h
    obtain ⟨s2, hs2, rfl⟩ := Option.map_eq_some'.mp h
    unfold resizeStep at hs2
    split at hs2
    · have := addBoids_flags hs2
      exact ⟨this.1, this.2.1, this.2.2.1⟩
    · split at hs2
      · cases hs2
        have := removeBoids_flags o.removals (s.boids.length - s.num_boids) s
        exact ⟨this.1, this.2.1, this.2.2.1⟩
      · cases hs2
        exact ⟨rfl, rfl, rfl⟩
  · rw [if_neg hu] at h
    cases h
    exact ⟨rfl, rfl, rfl⟩

theorem tick_flags {cube : ℚ} {o : TickOracle} {s s' : SimState}
    (h : tick cube o s = some s') :
    s'.running = (pollEvents o s).running ∧
      s'.stop_event = s.stop_event ∧ s'.pause_event = s.pause_event := by
  unfold tick at h
  obtain ⟨s2, hs2, h3⟩ := Option.bind_eq_some.mp h
  have hf := applyResize_flags hs2
  by_cases hp : s2.pause_event
  · rw [if_pos hp] at h3
    cases h3
    exact ⟨hf.1, hf.2.1.trans (pollEvents_stop o s),
      hf.2.2.trans (pollEvents_pause o s)⟩
  · rw [if_neg hp] at h3
    obtain ⟨bs, hbs, h4⟩ := Option.bind_eq_some.mp h3
    cases h4
    exact ⟨hf.1, hf.2.1.trans (pollEvents_stop o s),
      hf.2.2.trans (pollEvents_pause o s)⟩

theorem runLoop_of_not_running {cube : ℚ} {s : SimState}
    (h : s.running = false) (os : List TickOracle) :
    runLoop cube os s = some s := by
  cases os with
  | nil => rfl
  | cons o os => simp [runLoop, h]

/-- C7 (amended): once the run loop observes the stop event set, it clears
`running` and the observing iteration is the last one — no further tick
begins — but that iteration itself still completes (including its physics
pass), the tick itself never writes the stop flag, and after the loop exits
the run unit *does* clear the stop (and pause/update) events as its
end-of-run cleanup. -/
theorem c7_stop_observed (cube : ℚ) (o : TickOracle) (os : List TickOracle)
    (s s' : SimState) (hstop : s.stop_event = true) (hrun : s.running = true)
    (ht : tick cube o s = some s') :
    s'.running = false ∧ s'.stop_event = true ∧
      runLoop cube os s' = some s' ∧
      runSim cube (o :: os) s = some (runFinish s') ∧
      (runFinish s').stop_event = false := by
  have hf := tick_flags ht
  have hrun' : s'.running = false :=
    hf.1.trans (pollEvents_running_of_stop o s hstop)
  have hloop : runLoop cube os s' = some s' := runLoop_of_not_running hrun' os
  refine ⟨hrun', hf.2.1.trans hstop, hloop, ?_, rfl⟩
  unfold runSim runLoop
  rw [if_pos hrun, ht]
  simp [hloop]

/-- Witness for C7 (amended) at the concrete stopped scenario. -/
theorem c7_stop_observed_witness :
    c7State.stop_event = true ∧ c7State.running = true ∧
      tick 500 c7Oracle c7State = some c7After ∧
      (c7After.running = false ∧ c7After.stop_event = true ∧
        runLoop 500 [] c7After = some c7After ∧
        runSim 500 [c7Oracle] c7State = some (runFinish c7After) ∧
        (runFinish c7After).stop_event = false) :=
  ⟨by decide, by decide, by decide,
    c7_stop_observed 500 c7Oracle [] c7State c7After (by decide) (by decide)
      (by decide)⟩

/-- C7 counterexample: at a concrete running state with the stop event set,
the observing tick still performs a physics pass (the boid moves), and after
the loop exits the core *clears* the stop event (Simulation.py line 456) —
so the signal is neither physics-free after observation nor one-way with
respect to the core. -/
theorem c7_counterexample :
    c7State.stop_event = true ∧
      tick 500 c7Oracle c7State = some c7After ∧
      c7After.running = false ∧
      c7After.boids ≠ c7State.boids ∧
      runSim 500 [c7Oracle] c7State = some (runFinish c7After) ∧
      (runFinish c7After).stop_event = false := by decide

theorem addBoidsGo_append (s : SimState) (seeds : ℕ → NewBoidSeed) :
    ∀ (n k : ℕ) (bs out : List Boid), addBoidsGo s seeds n k bs = some out →
      ∃ new, out = bs ++ new := by
  intro n
  induction n with
  | zero =>
    intro k bs out h
    cases h
    exact ⟨[], by simp⟩
  | succ m ih =>
    intro k bs out h
    unfold addBoidsGo at h
    obtain ⟨b, hb, h2⟩ := Option.bind_eq_some.mp h
    obtain ⟨new, hnew⟩ := ih (k + 1) (bs ++ [b]) out h2
    exact ⟨b :: new, by simp [hnew]⟩

theorem addBoids_boids {seeds : ℕ → NewBoidSeed} {n : ℕ} {s s₁ : SimState}
    (h : addBoids seeds n s = some s₁) : ∃ new, s₁.boids = s.boids ++ new := by
  unfold addBoids at h
  obtain ⟨bs, hbs, rfl⟩ := Option.map_eq_some'.mp h
  exact addBoidsGo_append s seeds n 0 s.boids bs hbs

theorem removeBoidsGo_sublist (choice : ℕ → ℕ) :
    ∀ (n k : ℕ) (bs : List Boid),
      List.Sublist (removeBoidsGo choice n k bs) bs := by
  intro n
  induction n with
  | zero => intro k bs; exact List.Sublist.refl bs
  | succ m ih =>
    intro k bs
    unfold removeBoidsGo
    by_cases h : bs.isEmpty
    · rw [if_pos h]; exact ih (k + 1) bs
    · rw [if_neg h]
      exact (ih (k + 1) _).trans (List.eraseIdx_sublist bs (choice k % bs.length))

/-- C8: when the pause event is observed set, the tick consists of exactly
the event poll and the pending-resize handling — the physics pass is
skipped.  Consequently the kinematic state is framed: with no pending
resize the collection is untouched; a grow keeps every pre-existing agent
unchanged as a prefix; a shrink only removes agents (the survivors keep
their exact position and velocity).  (Rendering and camera handling touch
no modelled simulation state.) -/
theorem c8_pause_frame (cube : ℚ) (o : TickOracle) (s s' : SimState)
    (hp : s.pause_event = true) (ht : tick cube o s = some s') :
    applyResize o (pollEvents o s) = some s' ∧
      (s.update_event = false → s'.boids = s.boids) ∧
      (s.boids.length ≤ s.num_boids → s'.boids.take s.boids.length = s.boids) ∧
      (s.num_boids ≤ s.boids.length → List.Sublist s'.boids s.boids) := by
  unfold tick at ht
  obtain ⟨s2, hs2, h3⟩ := Option.bind_eq_some.mp ht
  have hp2 : s2.pause_event = true :=
    ((applyResize_flags hs2).2.2.trans (pollEvents_pause o s)).trans hp
  rw [if_pos hp2] at h3
  cases h3
  refine ⟨hs2, ?_, ?_, ?_⟩
  · intro hu
    unfold applyResize at hs2
    rw [pollEvents_update, hu, if_neg (by simp)] at hs2
    cases hs2
    exact pollEvents_boids o s
  · intro hle
    unfold applyResize at hs2
    by_cases hu : s.update_event
    · rw [pollEvents_update, hu, if_pos rfl] at hs2
      obtain ⟨s3, hs3, rfl⟩ := Option.map_eq_some'.mp hs2
      unfold resizeStep at hs3
      rw [pollEvents_boids, pollEvents_num_boids] at hs3
      split at hs3
      · obtain ⟨new, hnew⟩ := addBoids_boids hs3
        show s3.boids.take s.boids.length = s.boids
        rw [hnew, pollEvents_boids]
        exact List.take_left _ _
      · split at hs3
        · omega
        · cases hs3
          show (pollEvents o s).boids.take s.boids.length = s.boids
          rw [pollEvents_boids]
          exact List.take_length s.boids
    · rw [pollEvents_update, if_neg hu] at hs2
      cases hs2
      show (pollEvents o s).boids.take s.boids.length = s.boids
      rw [pollEvents_boids]
      exact List.take_length s.boids
  · intro hle
    unfold applyResize at hs2
    by_cases hu : s.update_event
    · rw [pollEvents_update, hu, if_pos rfl] at hs2
      obtain ⟨s3, hs3, rfl⟩ := Option.map_eq_some'.mp hs2
      unfold resizeStep at hs3
      rw [pollEvents_boids, pollEvents_num_boids] at hs3
      split at hs3
      · omega
      · split at hs3
        · cases hs3
          show List.Sublist (removeBoids _ _ (pollEvents o s)).boids s.boids
          unfold removeBoids
          rw [pollEvents_boids]
          exact removeBoidsGo_sublist o.removals _ 0 s.boids
        · cases hs3
          show List.Sublist (pollEvents o s).boids s.boids
          rw [pollEvents_boids]
    · rw [pollEvents_update, if_neg hu] at hs2
      cases hs2
      show List.Sublist (pollEvents o s).boids s.boids
      rw [pollEvents_boids]

/-- Witness for C8 at a concrete paused state with a pending grow. -/
theorem c8_pause_frame_witness :
    c8State.pause_event = true ∧
      tick 500 c8Oracle c8State = some c8After ∧
      (applyResize c8Oracle (pollEvents c8Oracle c8State) = some c8After ∧
        (c8State.update_event = false → c8After.boids = c8State.boids) ∧
        (c8State.boids.length ≤ c8State.num_boids →
          c8After.boids.take c8State.boids.length = c8State.boids) ∧
        (c8State.num_boids ≤ c8State.boids.length →
          List.Sublist c8After.boids c8State.boids)) :=
  ⟨by decide, by decide,
    c8_pause_frame 500 c8Oracle c8State c8After (by decide) (by decide)⟩

theorem physicsGo_shape (cube : ℚ) (os : ℕ → FlockOracle) :
    ∀ (todo done out : List Boid) (k : ℕ),
      physicsGo cube os k done todo = some out →
      ∃ rest, out = done ++ rest := by
  intro todo
  induction todo with
  | nil =>
    intro done out k h
    cases h
    exact ⟨[], by simp⟩
  | cons b todo ih =>
    intro done out k h
    unfold physicsGo at h
    obtain ⟨bf, hbf, h2⟩ := Option.bind_eq_some.mp h
    obtain ⟨bu, hbu, h3⟩ := Option.bind_eq_some.mp h2
    obtain ⟨rest, hrest⟩ := ih (done ++ [bu]) out (k + 1) h3
    exact ⟨bu :: rest, by simp [hrest]⟩

theorem physicsGo_mixed (cube : ℚ) (os : ℕ → FlockOracle) :
    ∀ (todo done out : List Boid) (k : ℕ),
      physicsGo cube os k done todo = some out →
      out.length = done.length + todo.length ∧
      out.take done.length = done ∧
      ∀ i (hi : i < todo.length),
        ∃ bf, Boid.flock cube (todo.get ⟨i, hi⟩)
            (out.take (done.length + i) ++ todo.drop (i + 1)) (os (k + i))
            = some bf ∧
          ∃ hbu : done.length + i < out.length,
            bf.update = some (out.get ⟨done.length + i, hbu⟩) := by
  intro todo
  induction todo with
  | nil =>
    intro done out k h
    cases h
    refine ⟨by simp, List.take_length done, ?_⟩
    intro i hi
    exact absurd hi (by simp)
  | cons b todo ih =>
    intro done out k h
    unfold physicsGo at h
    obtain ⟨bf, hbf, h2⟩ := Option.bind_eq_some.mp h
    obtain ⟨bu, hbu, h3⟩ := Option.bind_eq_some.mp h2
    obtain ⟨hlen, htake, hidx⟩ := ih (done ++ [bu]) out (k + 1) h3
    obtain ⟨rest, rfl⟩ :=
      physicsGo_shape cube os todo (done ++ [bu]) out (k + 1) h3
    have htake' : ((done ++ [bu]) ++ rest).take done.length = done := by
      rw [List.append_assoc]
      exact List.take_left done ([bu] ++ rest)
    have hget : ∀ h0 : done.length < ((done ++ [bu]) ++ rest).length,
        ((done ++ [bu]) ++ rest).get ⟨done.length, h0⟩ = bu := by
      intro h0
      simp [List.get_eq_getElem, List.getElem_append_right, List.append_assoc]
    refine ⟨by simp at hlen ⊢; omega, htake', ?_⟩
    intro i hi
    cases i with
    | zero =>
      refine ⟨bf, by simpa [htake'] using hbf, ⟨by simp, ?_⟩⟩
      simp only [Nat.add_zero]
      rw [hget (by simp)]
      exact hbu
    | succ j =>
      have hj : j < todo.length := by simpa using hi
      obtain ⟨bf', hbf', hex⟩ := hidx j hj
      have e1 : done.length + (j + 1) = (done ++ [bu]).length + j := by
        simp only [List.length_append, List.length_cons, List.length_nil]
        omega
      have e2 : k + (j + 1) = (k + 1) + j := by omega
      refine ⟨bf', ?_, ?_⟩
      · rw [show ((b :: todo).get ⟨j + 1, hi⟩) = todo.get ⟨j, hj⟩ from rfl,
          e1, e2]
        exact hbf'
      · rw [e1]
        exact hex

/-- C1 counterexample: at a concrete two-agent configuration (deterministic
oracle, no random impulse) the source's tick physics (`physicsPass`, the
loop `for boid in self.boids: boid.flock(self.boids); boid.update()`)
disagrees with the specified two-disjoint-passes semantics
(`physicsPassSpec`): the second agent's alignment reads the first agent's
*already integrated* velocity, sending it to position (15,0,0) instead of
(5,0,0).  The tick therefore does not execute two disjoint passes. -/
theorem c1_counterexample :
    physicsPass 500 c1Os [c1A, c1B] = some [c1OutA, c1OutB] ∧
      physicsPassSpec 500 c1Os [c1A, c1B] = some
        [c1OutA, { c1B with position := ⟨5, 0, 0⟩, velocity := ⟨-5, 0, 0⟩ }] ∧
      physicsPass 500 c1Os [c1A, c1B] ≠ physicsPassSpec 500 c1Os [c1A, c1B]
    := by decide

/-- C1 (amended): the tick's physics is a *single interleaved pass* in list
order: agent i computes its forces against the mixed state in which agents
before it in the list have already integrated this tick (the prefix of the
output) while agents after it have not (the suffix of the pre-tick list),
and integrates immediately afterwards. -/
theorem c1_interleaved_pass (cube : ℚ) (os : ℕ → FlockOracle)
    (bs out : List Boid) (h : physicsPass cube os bs = some out) :
    out.length = bs.length ∧
    ∀ i (hi : i < bs.length),
      ∃ bf, Boid.flock cube (bs.get ⟨i, hi⟩)
          (out.take i ++ bs.drop (i + 1)) (os i) = some bf ∧
        ∃ hbu : i < out.length, bf.update = some (out.get ⟨i, hbu⟩) := by
  obtain ⟨hlen, _, hidx⟩ := physicsGo_mixed cube os bs [] out 0 h
  refine ⟨by simpa using hlen, ?_⟩
  intro i hi
  simpa using hidx i hi

/-- Witness for C1 (amended) at the concrete two-agent configuration. -/
theorem c1_interleaved_pass_witness :
    physicsPass 500 c1Os [c1A, c1B] = some [c1OutA, c1OutB] ∧
      (([c1OutA, c1OutB] : List Boid).length
          = ([c1A, c1B] : List Boid).length ∧
        ∀ i (hi : i < ([c1A, c1B] : List Boid).length),
          ∃ bf, Boid.flock 500 (([c1A, c1B] : List Boid).get ⟨i, hi⟩)
              (([c1OutA, c1OutB] : List Boid).take i ++
                ([c1A, c1B] : List Boid).drop (i + 1)) (c1Os i) = some bf ∧
            ∃ hbu : i < ([c1OutA, c1OutB] : List Boid).length,
              bf.update = some (([c1OutA, c1OutB] : List Boid).get ⟨i, hbu⟩)) :=
  ⟨by decide,
    c1_interleaved_pass 500 c1Os [c1A, c1B] [c1OutA, c1OutB] (by decide)⟩

/-! Lemmas for the clustering claim. -/

theorem dist_to_comm (p q : V3) : dist_to p q = dist_to q p := by
  unfold dist_to
  congr 1
  simp only [normSq, V3.sub_x, V3.sub_y, V3.sub_z]
  ring

theorem boidClose_symm (s : SimState) {i j : ℕ} (h : boidClose s i j) :
    boidClose s j i := by
  unfold boidClose at h ⊢
  rwa [dist_to_comm]

theorem closeEdge_symm (s : SimState) : Symmetric (closeEdge s) :=
  fun _ _ h => ⟨h.1.symm, boidClose_symm s h.2⟩

theorem linked_symm (s : SimState) : Symmetric (Linked s) :=
  Relation.ReflTransGen.symmetric (closeEdge_symm s)

theorem mem_closeSet {s : SimState} {i a : ℕ} (h : a ∈ closeSet s i) :
    a = i ∨ (a ≠ i ∧ boidClose s i a) := by
  unfold closeSet at h
  rcases Finset.mem_insert.mp h with h | h
  · exact Or.inl h
  · exact Or.inr (Finset.mem_filter.mp h).2

theorem linked_of_mem_closeSet (s : SimState) (i a : ℕ)
    (h : a ∈ closeSet s i) : Linked s i a := by
  rcases mem_closeSet h with rfl | ⟨hne, hc⟩
  · exact Relation.ReflTransGen.refl
  · exact Relation.ReflTransGen.single ⟨Ne.symm hne, hc⟩

theorem allLinked_closeSet (s : SimState) (i : ℕ) :
    AllLinked s (closeSet s i) := by
  intro a ha b hb
  exact (linked_symm s (linked_of_mem_closeSet s i a ha)).trans
    (linked_of_mem_closeSet s i b hb)

theorem allLinked_union {s : SimState} {c g : Finset ℕ}
    (hc : AllLinked s c) (hg : AllLinked s g) (hne : (c ∩ g).Nonempty) :
    AllLinked s (c ∪ g) := by
  obtain ⟨x, hx⟩ := hne
  have hxc : x ∈ c := (Finset.mem_inter.mp hx).1
  have hxg : x ∈ g := (Finset.mem_inter.mp hx).2
  have link_to_x : ∀ y ∈ c ∪ g, Linked s y x := by
    intro y hy
    rcases Finset.mem_union.mp hy with h | h
    · exact hc y h x hxc
    · exact hg y h x hxg
  intro a ha b hb
  exact (link_to_x a ha).trans (linked_symm s (link_to_x b hb))

theorem mergeScan_allLinked {s : SimState} :
    ∀ (gs : List (Finset ℕ)) (c : Finset ℕ),
      AllLinked s c → (∀ g ∈ gs, AllLinked s g) →
      AllLinked s (mergeScan c gs).1 ∧
        ∀ g ∈ (mergeScan c gs).2, AllLinked s g := by
  intro gs
  induction gs with
  | nil =>
    intro c hc _
    exact ⟨hc, by simp [mergeScan]⟩
  | cons g gs ih =>
    intro c hc hgs
    rw [mergeScan]
    by_cases h : (c ∩ g).Nonempty
    · rw [if_pos h]
      exact ih (c ∪ g) (allLinked_union hc (hgs g (by simp)) h)
        (fun g' hg' => hgs g' (by simp [hg']))
    · rw [if_neg h]
      obtain ⟨h1, h2⟩ := ih c hc (fun g' hg' => hgs g' (by simp [hg']))
      refine ⟨h1, ?_⟩
      intro g' hg'
      rcases List.mem_cons.mp hg' with rfl | hmem
      · exact hgs g' (by simp)
      · exact h2 g' hmem

theorem mergeGroupsGo_allLinked {s : SimState} :
    ∀ (fuel : ℕ) (gs : List (Finset ℕ)),
      (∀ g ∈ gs, AllLinked s g) →
      ∀ h ∈ mergeGroupsGo fuel gs, AllLinked s h := by
  intro fuel
  induction fuel with
  | zero =>
    intro gs _ h hmem
    simp [mergeGroupsGo] at hmem
  | succ m ih =>
    intro gs hgs h hmem
    cases gs with
    | nil => simp [mergeGroupsGo] at hmem
    | cons g gs =>
      rw [mergeGroupsGo] at hmem
      obtain ⟨h1, h2⟩ := mergeScan_allLinked gs g (hgs g (by simp))
        (fun g' hg' => hgs g' (by simp [hg']))
      rcases List.mem_cons.mp hmem with rfl | hmem2
      · exact h1
      · exact ih _ h2 h hmem2

theorem initialGroups_allLinked (s : SimState) :
    ∀ g ∈ initialGroups s, AllLinked s g := by
  intro g hg
  unfold initialGroups at hg
  obtain ⟨hg2, -⟩ := List.mem_filter.mp hg
  obtain ⟨i, -, rfl⟩ := List.mem_map.mp hg2
  exact allLinked_closeSet s i

/-- C2 counterexample: for four agents on a line at abscissas 0, 3, 1, 2
(in list order) with close-distance threshold 3/2, the closeness graph has
the single connected component {0,1,2,3} (edges 0-2, 2-3, 3-1), yet
`_get_boid_groups` emits *two overlapping* groups — agents 1 and 3 appear in
both — because the single-scan merge never rechecks a close set it already
passed.  The output is therefore not the partition into connected
components (the cells of a partition are pairwise disjoint). -/
theorem c2_counterexample :
    get_boid_groups c2Quad = [{0, 1, 2, 3}, {1, 3}] ∧
      (({0, 1, 2, 3} : Finset ℕ) ∩ {1, 3}).Nonempty ∧
      ({0, 1, 2, 3} : Finset ℕ) ≠ {1, 3} := by decide

/-- C2 (amended): every group emitted by `_get_boid_groups` is contained in
a single connected component of the closeness graph (all its members are
pairwise linked), and on the spec's 4-agent layout (A-B and B-C close, A-C
not, plus an isolated agent) it produces exactly the single group {A,B,C};
but in general the output need not be the exact component partition: a
component can be emitted as several overlapping groups. -/
theorem c2_groups_in_components :
    get_boid_groups c2ABC = [{0, 1, 2}] ∧
      ∀ (s : SimState) (g : Finset ℕ), g ∈ get_boid_groups s →
        AllLinked s g := by
  constructor
  · decide
  · intro s g hg
    unfold get_boid_groups mergeGroups at hg
    exact mergeGroupsGo_allLinked _ _ (initialGroups_allLinked s) g hg

/-- Witness for C2 (amended) at the concrete 4-agent layout. -/
theorem c2_groups_in_components_witness :
    ({0, 1, 2} : Finset ℕ) ∈ get_boid_groups c2ABC ∧
      AllLinked c2ABC {0, 1, 2} :=
  ⟨by decide, c2_groups_in_components.2 c2ABC {0, 1, 2} (by decide)⟩
